import Mathlib

/-!
Verification of the charging-control integration
(`custom_components/charging_control`, files `sensor.py`, `switch.py`,
`select.py`).

Modelling conventions (shallow embedding):
* Python `float` values (powers, voltages, currents, timestamps) are
  modelled by `ℚ`; `datetime` instants become rational "seconds", so
  `timedelta(seconds = w)` subtraction is plain subtraction.
* `None` / exceptional results are modelled with `Option`.
* A Python `try:`/`except:` block whose body may raise is modelled by a
  `..._body` function returning `Option` (`none` = the body raised) and a
  wrapper applying the handler (`Option.getD`).
* Entity states read from the platform are modelled as the already-read
  values: `Option String` for a state that may be absent, `ℚ` for numeric
  values that `_get_state_value` has already defaulted.
-/

namespace ChargingControl

/-- Measurement stored by a power window: `(power, timestamp)`, the shape of
the tuples appended in `PowerWindow.add_measurement` (sensor.py line 49). -/
abbrev Measurement := ℚ × ℚ

/-- State of `PowerWindow` (sensor.py lines 39-67): the window length in
seconds and the deque of measurements, oldest first. -/
structure PowerWindow where
  window_seconds : ℚ
  measurements : List Measurement

namespace PowerWindow

/-- Embeds `PowerWindow._cleanup` (sensor.py lines 52-56): pop from the left
while the head's timestamp is strictly below `current_time - window_seconds`. -/
def cleanup (w : PowerWindow) (current_time : ℚ) : PowerWindow :=
  { w with
    measurements :=
      w.measurements.dropWhile (fun m => m.2 < current_time - w.window_seconds) }

/-- Embeds `PowerWindow.add_measurement` (sensor.py lines 47-50): append the
sample, then purge relative to its timestamp. -/
def add_measurement (w : PowerWindow) (power timestamp : ℚ) : PowerWindow :=
  cleanup { w with measurements := w.measurements ++ [(power, timestamp)] } timestamp

/-- Embeds `PowerWindow.get_average` (sensor.py lines 58-63): purge relative
to `current_time`, return `None` on an empty window, otherwise the arithmetic
mean of the remaining powers. -/
def get_average (w : PowerWindow) (current_time : ℚ) : Option ℚ :=
  let ms := (w.cleanup current_time).measurements
  if ms = [] then none
  else some ((ms.map Prod.fst).sum / (ms.length : ℚ))

/-- Runs a sequence of `add_measurement` calls, the way the periodic tick
`_update_power_measurements` (sensor.py lines 348-355) feeds the window. -/
def addAll (w : PowerWindow) (samples : List Measurement) : PowerWindow :=
  samples.foldl (fun acc s => acc.add_measurement s.1 s.2) w

/-- Window holding the given measurement list (fresh window after the listed
additions, once the invariants hold). -/
def ofList (windowSeconds : ℚ) (ms : List Measurement) : PowerWindow :=
  ⟨windowSeconds, ms⟩

end PowerWindow

/-- Embeds `_calculate_current_power` (sensor.py lines 378-401): per-phase
power `voltage * current`, summed over the three phases.  The `try` body
contains no fallible operation once `_get_state_value` has defaulted the
readings, so the function is total here; the caller-facing `float | None`
type is recovered where needed by wrapping in `some`. -/
def calculate_current_power (i1 i2 i3 v1 v2 v3 : ℚ) : ℚ :=
  v1 * i1 + v2 * i2 + v3 * i3

/-- Embeds `_calculate_charger_power` (sensor.py lines 403-427): identical
formula over the charger's own per-phase current readings. -/
def calculate_charger_power (c1 c2 c3 v1 v2 v3 : ℚ) : ℚ :=
  v1 * c1 + v2 * c2 + v3 * c3

/-- Embeds `_calculate_charging_allowed` (sensor.py lines 227-239):
`avg_import_15min` and `max_import` arrive already defaulted by
`_get_state_value`; disallow when `max_import <= 0`, otherwise allow exactly
when the 15-minute average is strictly below the budget. -/
def calculate_charging_allowed (avg_import_15min max_import : ℚ) : Bool :=
  if max_import ≤ 0 then false
  else avg_import_15min < max_import

/-- Embeds sensor.py lines 248-251: the 30-second window average when the
window has data, else the instantaneous power of this tick, else `0`
(Python `self._calculate_current_power() or 0`; a `0.0` instantaneous value
falls through `or` to the literal `0`, numerically the same). -/
def effective_avg_power_30s (windowAvg instPower : Option ℚ) : ℚ :=
  match windowAvg with
  | some a => a
  | none =>
    match instPower with
    | some p => p
    | none => 0

/-- Embeds the `try` body of `_calculate_max_current` (sensor.py lines
243-289).  `none` models the body raising (the only fallible operation on
defaulted inputs is the division, which raises `ZeroDivisionError` exactly
when the averaged voltage is zero).  `math.floor` on an exact rational is
`Rat.floor`. -/
def calculate_max_current_body (max_import_power : ℚ)
    (windowAvg instPower : Option ℚ) (charger_power v1 v2 v3 : ℚ)
    (max_current_cap : ℤ) : Option ℤ :=
  let avg_power_30s := effective_avg_power_30s windowAvg instPower
  let base_power := avg_power_30s - charger_power
  let available_power := max_import_power - base_power
  if available_power ≤ 0 then some 0
  else
    let avg_voltage := (v1 + v2 + v3) / 3
    if avg_voltage = 0 then none
    else
      let max_current_int := Rat.floor (available_power / (3 * avg_voltage))
      if max_current_int < 6 then some 6
      else if max_current_cap < max_current_int then some max_current_cap
      else some max_current_int

/-- Embeds `_calculate_max_current` (sensor.py lines 241-293): the `try`
body with its `except` handler, which logs and returns `0`. -/
def calculate_max_current (max_import_power : ℚ)
    (windowAvg instPower : Option ℚ) (charger_power v1 v2 v3 : ℚ)
    (max_current_cap : ℤ) : ℤ :=
  (calculate_max_current_body max_import_power windowAvg instPower
    charger_power v1 v2 v3 max_current_cap).getD 0

/-- Embeds `_is_charging_enabled` (sensor.py lines 108-117): a missing
enable-toggle entity defaults to enabled, otherwise enabled exactly when the
reported state is the string "on". -/
def is_charging_enabled (toggleState : Option String) : Bool :=
  match toggleState with
  | none => true
  | some s => s == "on"

/-- Embeds `ChargingAllowedSensor.native_value` (sensor.py lines 445-462):
short-circuit to `false` when the enable toggle is off, otherwise the same
budget comparison as `_calculate_charging_allowed`, inlined in the source. -/
def charging_allowed_native (toggleState : Option String)
    (avg_import_15min max_import : ℚ) : Bool :=
  if ¬ is_charging_enabled toggleState then false
  else if max_import ≤ 0 then false
  else avg_import_15min < max_import

/-- Embeds `MaxChargingCurrentSensor.native_value` (sensor.py lines 492-549):
inside its `try`, short-circuit to `0` when the enable toggle is off,
otherwise the computation duplicated verbatim from `_calculate_max_current`
(lines 500-545 repeat lines 244-289), with the same `except` handler
returning `0`. -/
def max_charging_current_native (toggleState : Option String)
    (max_import_power : ℚ) (windowAvg instPower : Option ℚ)
    (charger_power v1 v2 v3 : ℚ) (max_current_cap : ℤ) : ℤ :=
  if ¬ is_charging_enabled toggleState then 0
  else
    calculate_max_current max_import_power windowAvg instPower
      charger_power v1 v2 v3 max_current_cap

/-- C2: the budget check disallows charging whenever `max_import_power <= 0`,
and otherwise allows it exactly when the 15-minute average import power is
strictly below `max_import_power` (sensor.py lines 227-239). -/
theorem budget_check_spec (avg15 maxImport : ℚ) :
    (maxImport ≤ 0 → calculate_charging_allowed avg15 maxImport = false) ∧
    (0 < maxImport →
      (calculate_charging_allowed avg15 maxImport = true ↔ avg15 < maxImport)) := by
  constructor
  · intro h
    simp [calculate_charging_allowed, h]
  · intro h
    rw [calculate_charging_allowed, if_neg (by linarith)]
    simp

/-- Witness for C2: at `max_import_power = 0` charging is disallowed whatever
the average; at budget 100 with average 50 it is allowed. -/
theorem budget_check_spec_witness :
    calculate_charging_allowed 50 0 = false ∧
    calculate_charging_allowed 50 100 = true := by
  constructor
  · exact (budget_check_spec 50 0).1 (by norm_num)
  · exact ((budget_check_spec 50 100).2 (by norm_num)).mpr (by norm_num)

/-- Rat.floor is the floor of the floor ring ℚ (definitional, via the
`FloorRing ℚ` instance). -/
theorem rat_floor_eq_int_floor (q : ℚ) : Rat.floor q = ⌊q⌋ := rfl

/-- C1: writing `available_power` for `max_import_power - base_power` with
`base_power = avg_power_30s - charger_power`, the computed current is `0`
whenever `available_power <= 0`; and whenever `available_power > 0`, the cap
is in `6..32` and the average voltage is nonzero (so the division is
defined), the result is the floor of `available_power / (3 * avg_voltage)`
clamped upward to `6` and downward to the cap, hence lies in `[6, cap]`
(sensor.py lines 241-293). -/
theorem max_current_clamp_spec (maxImport : ℚ) (windowAvg instPower : Option ℚ)
    (chargerPower v1 v2 v3 : ℚ) (cap : ℤ)
    (hcap : 6 ≤ cap ∧ cap ≤ 32) :
    (maxImport - (effective_avg_power_30s windowAvg instPower - chargerPower) ≤ 0 →
      calculate_max_current maxImport windowAvg instPower chargerPower v1 v2 v3 cap
        = 0) ∧
    (0 < maxImport - (effective_avg_power_30s windowAvg instPower - chargerPower) →
      (v1 + v2 + v3) / 3 ≠ 0 →
      calculate_max_current maxImport windowAvg instPower chargerPower v1 v2 v3 cap
        = max 6 (min cap
            ⌊(maxImport - (effective_avg_power_30s windowAvg instPower - chargerPower))
              / (3 * ((v1 + v2 + v3) / 3))⌋) ∧
      6 ≤ calculate_max_current maxImport windowAvg instPower chargerPower v1 v2 v3 cap ∧
      calculate_max_current maxImport windowAvg instPower chargerPower v1 v2 v3 cap ≤ cap) := by
  constructor
  · intro h
    rw [calculate_max_current, calculate_max_current_body, if_pos h]
    rfl
  · intro h hv
    have hform :
        calculate_max_current maxImport windowAvg instPower chargerPower v1 v2 v3 cap
          = max 6 (min cap
              ⌊(maxImport - (effective_avg_power_30s windowAvg instPower - chargerPower))
                / (3 * ((v1 + v2 + v3) / 3))⌋) := by
      rw [calculate_max_current, calculate_max_current_body]
      rw [if_neg (not_le.mpr h), if_neg hv, rat_floor_eq_int_floor]
      set m := ⌊(maxImport - (effective_avg_power_30s windowAvg instPower - chargerPower))
        / (3 * ((v1 + v2 + v3) / 3))⌋ with hm
      rcases lt_or_le m 6 with h6 | h6
      · rw [if_pos h6]
        simp only [Option.getD_some]
        omega
      · rw [if_neg (not_lt.mpr h6)]
        rcases lt_or_le cap m with hc | hc
        · rw [if_pos hc]
          simp only [Option.getD_some]
          omega
        · rw [if_neg (not_lt.mpr hc)]
          simp only [Option.getD_some]
          omega
    refine ⟨hform, ?_, ?_⟩
    · rw [hform]; exact le_max_left _ _
    · rw [hform]; exact max_le hcap.1 (min_le_left _ _)

/-- Witness for C1: the spec's end-to-end scenario `max_import = 5000`,
30-second average `3000`, charger power `1000`, voltages `230`, cap `16`
gives a current in `[6, 16]`, and the same configuration with `max_import =
1000` (no headroom) gives `0`. -/
theorem max_current_clamp_spec_witness :
    (6 ≤ calculate_max_current 5000 (some 3000) none 1000 230 230 230 16 ∧
     calculate_max_current 5000 (some 3000) none 1000 230 230 230 16 ≤ 16) ∧
    calculate_max_current 1000 (some 3000) none 0 230 230 230 16 = 0 := by
  refine ⟨⟨?_, ?_⟩, ?_⟩
  · exact ((max_current_clamp_spec 5000 (some 3000) none 1000 230 230 230 16
      ⟨by norm_num, by norm_num⟩).2
      (by norm_num [effective_avg_power_30s]) (by norm_num)).2.1
  · exact ((max_current_clamp_spec 5000 (some 3000) none 1000 230 230 230 16
      ⟨by norm_num, by norm_num⟩).2
      (by norm_num [effective_avg_power_30s]) (by norm_num)).2.2
  · exact (max_current_clamp_spec 1000 (some 3000) none 0 230 230 230 16
      ⟨by norm_num, by norm_num⟩).1 (by norm_num [effective_avg_power_30s])

/-- Counterexample for C4: with `max_import_power = 100`, a recorded
30-second average of `0`, no charger draw and all three voltage readings
`0`, the `try` body of the max-current computation raises
(`ZeroDivisionError`, modelled by `none`), the handler returns `0` — but at
the same evaluation the budget check with 15-minute average `50` still
returns `true`, not the claimed conservative `charging_allowed = false`. -/
theorem exception_default_counterexample :
    calculate_max_current_body 100 (some 0) none 0 0 0 0 16 = none ∧
    calculate_max_current 100 (some 0) none 0 0 0 0 16 = 0 ∧
    calculate_charging_allowed 50 100 = true := by
  refine ⟨?_, ?_, ?_⟩
  · norm_num [calculate_max_current_body, effective_avg_power_30s]
  · norm_num [calculate_max_current, calculate_max_current_body, effective_avg_power_30s]
  · norm_num [calculate_charging_allowed]

/-- C4 (amended): the only exception the max-current `try` body can raise on
defaulted readings is the division by a zero average voltage with positive
headroom; it is caught inside `_calculate_max_current`, which then returns
the conservative `max_current = 0` and never propagates.  The
charging-allowed computation is a separate total function, so an exception
in the max-current computation leaves `charging_allowed` at its own
independently computed value rather than forcing it to `false`. -/
theorem exception_conservative_default (maxImport : ℚ)
    (windowAvg instPower : Option ℚ) (chargerPower v1 v2 v3 : ℚ) (cap : ℤ) :
    (calculate_max_current_body maxImport windowAvg instPower chargerPower
        v1 v2 v3 cap = none ↔
      0 < maxImport - (effective_avg_power_30s windowAvg instPower - chargerPower) ∧
      v1 + v2 + v3 = 0) ∧
    (calculate_max_current_body maxImport windowAvg instPower chargerPower
        v1 v2 v3 cap = none →
      calculate_max_current maxImport windowAvg instPower chargerPower
        v1 v2 v3 cap = 0) := by
  constructor
  · rw [calculate_max_current_body]
    rcases le_or_lt (maxImport - (effective_avg_power_30s windowAvg instPower - chargerPower)) 0
      with h | h
    · rw [if_pos h]
      simp only [reduceCtorEq, false_iff, not_and]
      intro h'
      exact absurd h (not_le.mpr h')
    · rw [if_neg (not_le.mpr h)]
      by_cases hv : (v1 + v2 + v3) / 3 = 0
      · have hz : v1 + v2 + v3 = 0 := by
          rcases div_eq_zero_iff.mp hv with hz | h3
          · exact hz
          · norm_num at h3
        simp [hv, hz, h]
      · have hnz : v1 + v2 + v3 ≠ 0 := fun hz => hv (by rw [hz]; norm_num)
        rw [if_neg hv]
        simp only [hnz, and_false, iff_false]
        intro hc
        split at hc
        · simp at hc
        · split at hc <;> simp at hc
  · intro h
    rw [calculate_max_current, h]
    rfl

/-- Witness for C4 (amended): with budget `200`, window average `0`, zero
voltages, the body raises and the handler yields `0`; with voltage `230` the
body does not raise. -/
theorem exception_conservative_default_witness :
    calculate_max_current_body 200 (some 0) none 0 0 0 0 16 = none ∧
    calculate_max_current 200 (some 0) none 0 0 0 0 16 = 0 ∧
    calculate_max_current_body 200 (some 0) none 0 230 230 230 16 ≠ none := by
  have hnone : calculate_max_current_body 200 (some 0) none 0 0 0 0 16 = none :=
    (exception_conservative_default 200 (some 0) none 0 0 0 0 16).1.mpr
      ⟨by norm_num [effective_avg_power_30s], by norm_num⟩
  refine ⟨hnone, (exception_conservative_default 200 (some 0) none 0 0 0 0 16).2 hnone, ?_⟩
  intro hc
  have := (exception_conservative_default 200 (some 0) none 0 230 230 230 16).1.mp hc
  norm_num at this

/-- C10: whenever the enable toggle reads a present state other than "on",
the charging-allowed sensor reports `false` and the max-charging-current
sensor reports `0` regardless of every power reading; and when the toggle
entity is absent, enablement defaults to `true` and both sensors report the
normal computations (sensor.py lines 108-117, 445-462, 492-549). -/
theorem toggle_short_circuit (s : String) (avg15 maxImport maxImportP : ℚ)
    (windowAvg instPower : Option ℚ) (chargerPower v1 v2 v3 : ℚ) (cap : ℤ)
    (hs : s ≠ "on") :
    charging_allowed_native (some s) avg15 maxImport = false ∧
    max_charging_current_native (some s) maxImportP windowAvg instPower
      chargerPower v1 v2 v3 cap = 0 ∧
    charging_allowed_native none avg15 maxImport
      = calculate_charging_allowed avg15 maxImport ∧
    max_charging_current_native none maxImportP windowAvg instPower
      chargerPower v1 v2 v3 cap
      = calculate_max_current maxImportP windowAvg instPower
          chargerPower v1 v2 v3 cap := by
  have hen : is_charging_enabled (some s) = false := by
    simp [is_charging_enabled, hs]
  refine ⟨?_, ?_, ?_, ?_⟩
  · simp [charging_allowed_native, hen]
  · simp [max_charging_current_native, hen]
  · simp [charging_allowed_native, is_charging_enabled, calculate_charging_allowed]
  · simp [max_charging_current_native, is_charging_enabled]

/-- Witness for C10: a toggle reading "off" forces `false` and `0` at
concrete power readings that would otherwise allow charging. -/
theorem toggle_short_circuit_witness :
    charging_allowed_native (some "off") 50 100 = false ∧
    max_charging_current_native (some "off") 5000 (some 3000) none 1000
      230 230 230 16 = 0 := by
  have h := toggle_short_circuit "off" 50 100 5000 (some 3000) none 1000
    230 230 230 16 (by decide)
  exact ⟨h.1, h.2.1⟩

/-- C8: in the max-current computation, the 30-second window average is used
whenever present; when the window is empty the instantaneous total power of
this tick (per-phase `voltage * current`, summed) is used instead, and `0`
when that is also unavailable; the computation depends on the pair only
through this effective value (sensor.py lines 247-251, 378-401). -/
theorem avg30_fallback_spec (maxImport : ℚ) (windowAvg instPower : Option ℚ)
    (chargerPower v1 v2 v3 : ℚ) (cap : ℤ) :
    (∀ a, windowAvg = some a →
      effective_avg_power_30s windowAvg instPower = a) ∧
    (windowAvg = none → ∀ p, instPower = some p →
      effective_avg_power_30s windowAvg instPower = p) ∧
    (windowAvg = none → instPower = none →
      effective_avg_power_30s windowAvg instPower = 0) ∧
    (∀ i1 i2 i3 w1 w2 w3,
      effective_avg_power_30s none (some (calculate_current_power i1 i2 i3 w1 w2 w3))
        = w1 * i1 + w2 * i2 + w3 * i3) ∧
    calculate_max_current maxImport windowAvg instPower chargerPower v1 v2 v3 cap
      = calculate_max_current maxImport
          (some (effective_avg_power_30s windowAvg instPower)) none
          chargerPower v1 v2 v3 cap := by
  refine ⟨?_, ?_, ?_, ?_, ?_⟩
  · rintro a rfl; rfl
  · rintro rfl p rfl; rfl
  · rintro rfl rfl; rfl
  · intro i1 i2 i3 w1 w2 w3; rfl
  · rfl

/-- Witness for C8: the fallback chain evaluated at window average 3000,
instantaneous power 999, and both absent. -/
theorem avg30_fallback_spec_witness :
    effective_avg_power_30s (some 3000) (some 999) = 3000 ∧
    effective_avg_power_30s none (some 999) = 999 ∧
    effective_avg_power_30s none none = 0 ∧
    calculate_max_current 5000 (some 3000) (some 999) 1000 230 230 230 16
      = calculate_max_current 5000
          (some (effective_avg_power_30s (some 3000) (some 999))) none
          1000 230 230 230 16 := by
  exact ⟨(avg30_fallback_spec 5000 (some 3000) (some 999) 1000 230 230 230 16).1 3000 rfl,
    (avg30_fallback_spec 5000 none (some 999) 1000 230 230 230 16).2.1 rfl 999 rfl,
    (avg30_fallback_spec 5000 none none 1000 230 230 230 16).2.2.1 rfl rfl,
    (avg30_fallback_spec 5000 (some 3000) (some 999) 1000 230 230 230 16).2.2.2.2⟩

/-- C9: a window whose purge at query time leaves exactly one sample reports
that sample's power as the average (sensor.py lines 58-63). -/
theorem single_sample_average (w : PowerWindow) (now p t : ℚ)
    (h : (w.cleanup now).measurements = [(p, t)]) :
    w.get_average now = some p := by
  simp [PowerWindow.get_average, h]

/-- Witness for C9: a 30-second window holding one sample at time 10 queried
at time 30 returns that sample's power. -/
theorem single_sample_average_witness :
    PowerWindow.get_average ⟨30, [(5, 10)]⟩ 30 = some 5 := by
  refine single_sample_average ⟨30, [(5, 10)]⟩ 30 5 10 ?_
  norm_num [PowerWindow.cleanup, List.dropWhile_cons]

/-- Unfolding step for `addAll`. -/
theorem addAll_cons (w : PowerWindow) (s : Measurement) (rest : List Measurement) :
    w.addAll (s :: rest) = (w.add_measurement s.1 s.2).addAll rest := rfl

/-- addAll never changes the window length. -/
theorem addAll_window_seconds (wsec : ℚ) :
    ∀ (samples init : List Measurement),
      (PowerWindow.addAll ⟨wsec, init⟩ samples).window_seconds = wsec := by
  intro samples
  induction samples with
  | nil => intro init; rfl
  | cons s rest ih =>
    intro init
    rw [addAll_cons]
    exact ih _

/-- Purging a timestamp-sorted list keeps exactly the samples at or after the
cutoff: the prefix trim of `_cleanup` agrees with a filter. -/
theorem dropWhile_lt_eq_filter (c : ℚ) :
    ∀ ms : List Measurement, ms.Pairwise (fun a b => a.2 ≤ b.2) →
      ms.dropWhile (fun m => m.2 < c) = ms.filter (fun m => c ≤ m.2) := by
  intro ms
  induction ms with
  | nil => simp
  | cons a tl ih =>
    intro hp
    rw [List.pairwise_cons] at hp
    obtain ⟨ha, htl⟩ := hp
    by_cases hc : a.2 < c
    · rw [List.dropWhile_cons_of_pos (by simpa using hc),
        List.filter_cons_of_neg (by simpa using not_le.mpr hc)]
      exact ih htl
    · rw [List.dropWhile_cons_of_neg (by simpa using hc),
        List.filter_cons_of_pos (by simpa using not_lt.mp hc)]
      congr 1
      exact (List.filter_eq_self.mpr
        (fun b hb => by simpa using le_trans (not_lt.mp hc) (ha b hb))).symm

/-- Samples purged by an insert-time cleanup at a cutoff at or before the
query cutoff never survive the query filter. -/
theorem filter_dropWhile_le (c d : ℚ) (h : d ≤ c) :
    ∀ ms : List Measurement,
      (ms.dropWhile (fun m => m.2 < d)).filter (fun m => c ≤ m.2)
        = ms.filter (fun m => c ≤ m.2) := by
  intro ms
  induction ms with
  | nil => simp
  | cons a tl ih =>
    by_cases hd : a.2 < d
    · rw [List.dropWhile_cons_of_pos (by simpa using hd),
        List.filter_cons_of_neg (by simpa using not_le.mpr (lt_of_lt_of_le hd h))]
      exact ih
    · rw [List.dropWhile_cons_of_neg (by simpa using hd)]

/-- Feeding samples whose timestamps all precede the query cutoff's offset
leaves the query-time filter of the window's contents equal to the filter of
everything ever appended: insert-time purges only remove samples the query
filter would drop anyway. -/
theorem addAll_measurements_filter (wsec c : ℚ) :
    ∀ (samples init : List Measurement),
      (∀ s ∈ samples, s.2 - wsec ≤ c) →
      ((PowerWindow.addAll ⟨wsec, init⟩ samples).measurements).filter
          (fun m => c ≤ m.2)
        = (init ++ samples).filter (fun m => c ≤ m.2) := by
  intro samples
  induction samples with
  | nil => intro init _; simp [PowerWindow.addAll]
  | cons s rest ih =>
    intro init h
    rw [addAll_cons]
    have hstep : (PowerWindow.add_measurement ⟨wsec, init⟩ s.1 s.2).measurements
        = (init ++ [s]).dropWhile (fun m => m.2 < s.2 - wsec) := by
      simp [PowerWindow.add_measurement, PowerWindow.cleanup]
    have hadd : PowerWindow.add_measurement ⟨wsec, init⟩ s.1 s.2
        = ⟨wsec, (init ++ [s]).dropWhile (fun m => m.2 < s.2 - wsec)⟩ := by
      simp [PowerWindow.add_measurement, PowerWindow.cleanup]
    rw [hadd, ih _ (fun r hr => h r (List.mem_cons_of_mem _ hr))]
    rw [List.filter_append, filter_dropWhile_le c (s.2 - wsec) (h s (List.mem_cons_self _ _)),
      ← List.filter_append, List.append_assoc, List.singleton_append]

/-- Feeding timestamp-monotone samples into a window with sorted contents
keeps the contents sorted. -/
theorem addAll_sorted (wsec : ℚ) :
    ∀ (samples init : List Measurement),
      init.Pairwise (fun a b => a.2 ≤ b.2) →
      (∀ a ∈ init, ∀ s ∈ samples, a.2 ≤ s.2) →
      samples.Pairwise (fun a b => a.2 ≤ b.2) →
      ((PowerWindow.addAll ⟨wsec, init⟩ samples).measurements).Pairwise
        (fun a b => a.2 ≤ b.2) := by
  intro samples
  induction samples with
  | nil => intro init h1 _ _; simpa [PowerWindow.addAll] using h1
  | cons s rest ih =>
    intro init h1 hcross hs
    rw [List.pairwise_cons] at hs
    obtain ⟨hhead, hrest⟩ := hs
    rw [addAll_cons]
    have hadd : PowerWindow.add_measurement ⟨wsec, init⟩ s.1 s.2
        = ⟨wsec, (init ++ [s]).dropWhile (fun m => m.2 < s.2 - wsec)⟩ := by
      simp [PowerWindow.add_measurement, PowerWindow.cleanup]
    rw [hadd]
    apply ih
    · refine List.Pairwise.sublist (List.dropWhile_sublist _) ?_
      refine List.pairwise_append.mpr ⟨h1, by simp, ?_⟩
      intro a haInit b hb
      rw [List.mem_singleton] at hb
      rw [hb]
      exact hcross a haInit s (List.mem_cons_self _ _)
    · intro a ha r hr
      rcases List.mem_append.mp ((List.dropWhile_sublist _).subset ha) with hmem | hmem
      · exact hcross a hmem r (List.mem_cons_of_mem _ hr)
      · rw [List.mem_singleton] at hmem
        subst hmem
        exact hhead r hr
    · exact hrest

/-- C6 (amended): for samples inserted with non-decreasing timestamps and a
query time at or after every inserted timestamp, `get_average` returns the
arithmetic mean of exactly the inserted samples with
`t >= now - window_duration` (the boundary sample is included, since
`_cleanup` discards only strictly older samples), and `None` when no sample
qualifies (sensor.py lines 39-67). -/
theorem window_average_spec (wsec : ℚ) (samples : List Measurement) (now : ℚ)
    (hmono : samples.Pairwise (fun a b => a.2 ≤ b.2))
    (hnow : ∀ s ∈ samples, s.2 ≤ now) :
    (PowerWindow.addAll ⟨wsec, []⟩ samples).get_average now =
      (if samples.filter (fun s => now - wsec ≤ s.2) = [] then none
       else some (((samples.filter (fun s => now - wsec ≤ s.2)).map Prod.fst).sum
         / ((samples.filter (fun s => now - wsec ≤ s.2)).length : ℚ))) := by
  have hsorted := addAll_sorted wsec samples [] (by simp) (by simp) hmono
  have hfilter := addAll_measurements_filter wsec (now - wsec) samples []
    (fun s hs => by linarith [hnow s hs])
  simp only [PowerWindow.get_average, PowerWindow.cleanup,
    addAll_window_seconds wsec samples []]
  rw [dropWhile_lt_eq_filter _ _ hsorted, hfilter, List.nil_append]

/-- Witness for C6 (amended): two samples at times 10 and 20 in a 30-second
window queried at time 30 average to 5. -/
theorem window_average_spec_witness :
    (PowerWindow.addAll ⟨30, []⟩ [(4, 10), (6, 20)]).get_average 30 = some 5 := by
  rw [window_average_spec 30 [(4, 10), (6, 20)] 30
    (by norm_num [List.pairwise_cons])
    (by intro s hs; fin_cases hs <;> norm_num)]
  norm_num [List.filter_cons]
  intro h
  simp at h

/-- Counterexample for C6: the sole sample `(5, 0)` inserted into a
30-second window and queried at time 30 sits exactly on the boundary
`t = now - window_duration`: no inserted sample satisfies the claimed strict
condition `t > now - window_duration`, yet the average is `some 5`, not the
claimed "no data" (sensor.py line 55 keeps boundary samples). -/
theorem window_average_strict_boundary_counterexample :
    (PowerWindow.addAll ⟨30, []⟩ [(5, 0)]).get_average 30 = some 5 ∧
    ([((5 : ℚ), (0 : ℚ))].filter (fun s => (30 : ℚ) - 30 < s.2)) = [] := by
  constructor
  · norm_num [PowerWindow.addAll, PowerWindow.add_measurement, PowerWindow.cleanup,
      PowerWindow.get_average, List.dropWhile_cons]
  · norm_num [List.filter_cons]

/-!
String-side model for the actuator reconciler.  Python's `str(int)` and
`int(str)` are modelled by an explicit decimal printer and parser over the
string's character list; the parser accepts an optional sign followed by
decimal digits (the forms a current-selector option realistically takes;
Python's `int` additionally tolerates surrounding whitespace and
underscores, which no selector option uses).  Python's tuple `max` compares
`(int, str)` pairs lexicographically, strings by code point, keeping the
first maximum — `pairMax` below mirrors that.
-/

/-- Decimal digit character. -/
def digitChar : Nat → Char
  | 0 => '0' | 1 => '1' | 2 => '2' | 3 => '3' | 4 => '4'
  | 5 => '5' | 6 => '6' | 7 => '7' | 8 => '8' | _ => '9'

/-- Digits of a natural number, most significant first; `fuel` bounds the
recursion and any `fuel > n` gives the true digits. -/
def natDigitsAux : Nat → Nat → List Char
  | 0, _ => []
  | fuel + 1, n =>
    if n < 10 then [digitChar n]
    else natDigitsAux fuel (n / 10) ++ [digitChar (n % 10)]

/-- Decimal digits of a natural number. -/
def natDigits (n : Nat) : List Char := natDigitsAux (n + 1) n

/-- Models Python `str` on an `int`: decimal digits with a leading minus for
negatives (sensor.py line 194). -/
def intStr (i : ℤ) : String :=
  match i with
  | Int.ofNat m => ⟨natDigits m⟩
  | Int.negSucc m => ⟨'-' :: natDigits (m + 1)⟩

/-- Value of a decimal digit character, if it is one. -/
def digitVal (c : Char) : Option Nat :=
  if 48 ≤ c.toNat ∧ c.toNat ≤ 57 then some (c.toNat - 48) else none

/-- Accumulating decimal parser over a character list. -/
def parseNatCore : List Char → Nat → Option Nat
  | [], acc => some acc
  | c :: cs, acc =>
    match digitVal c with
    | some d => parseNatCore cs (10 * acc + d)
    | none => none

/-- Models Python `int` on a string (sensor.py line 202): an optional sign
followed by at least one decimal digit; anything else raises `ValueError`,
modelled as `none`. -/
def pyInt (s : String) : Option ℤ :=
  match s.data with
  | [] => none
  | '-' :: cs => if cs = [] then none else (parseNatCore cs 0).map (fun n => -(n : ℤ))
  | '+' :: cs => if cs = [] then none else (parseNatCore cs 0).map (fun n => (n : ℤ))
  | cs => (parseNatCore cs 0).map (fun n => (n : ℤ))

/-- Code-point lexicographic order on character lists, Python's string `<`. -/
def charsLt : List Char → List Char → Bool
  | [], [] => false
  | [], _ :: _ => true
  | _ :: _, [] => false
  | a :: as, b :: bs =>
    if a.toNat < b.toNat then true
    else if b.toNat < a.toNat then false
    else charsLt as bs

/-- Python string comparison `s < t`. -/
def strLt (s t : String) : Bool := charsLt s.data t.data

/-- Python `max` step on `(current_val, option)` tuples: replace the running
maximum exactly when the new tuple is lexicographically greater. -/
def pairMax (a b : ℤ × String) : ℤ × String :=
  if a.1 < b.1 then b
  else if b.1 < a.1 then a
  else if strLt a.2 b.2 then b
  else a

/-- Embeds the candidate collection of `_control_charger_current`
(sensor.py lines 199-206): options parsing as an `int` no greater than the
target, paired with their parsed value, in order. -/
def available_currents (options : List String) (target : ℤ) : List (ℤ × String) :=
  options.filterMap (fun o =>
    match pyInt o with
    | some v => if v ≤ target then some (v, o) else none
    | none => none)

/-- Embeds the option selection of `_control_charger_current` (sensor.py
lines 193-213): the exact string form of the target when it is an option,
else the lexicographic `max` of the candidates, else no selection. -/
def select_option_for (options : List String) (target : ℤ) : Option String :=
  let target_str := intStr target
  if target_str ∈ options then some target_str
  else
    match available_currents options target with
    | [] => none
    | a :: rest => some (rest.foldl pairMax a).2

/-- Embeds `_control_charger_current` (sensor.py lines 179-225) as the
command it issues: `none` when the selector entity is missing, has no
options, no candidate is found, or the reported level already equals the
selection; otherwise `some` of the option passed to `select_option`. -/
def control_charger_current (selState : Option (String × List String))
    (target_current : ℤ) : Option String :=
  match selState with
  | none => none
  | some (cur, options) =>
    if options = [] then none
    else
      match select_option_for options target_current with
      | none => none
      | some sel => if cur = sel then none else some sel

/-- Embeds `_control_charger_switch` (sensor.py lines 155-177) as the
command it issues: `some true` = `turn_on`, `some false` = `turn_off`,
`none` = no call (entity missing or already in the desired state). -/
def control_charger_switch (switchState : Option String)
    (should_charge : Bool) : Option Bool :=
  match switchState with
  | none => none
  | some st =>
    let current_is_on := st == "on"
    if should_charge && !current_is_on then some true
    else if !should_charge && current_is_on then some false
    else none

/-- Reported actuator state consumed by `_update_charger_control`: whether
each control entity is configured, and its currently reported state (switch
state string; selector level and option list). -/
structure ActuatorState where
  switch_configured : Bool
  switch_state : Option String
  select_configured : Bool
  select_state : Option (String × List String)

/-- Embeds the control part of `_update_charger_control` (sensor.py lines
144-150): command the switch towards `charging_enabled AND
charging_allowed` when configured, and command the selector only when it is
configured and both flags hold. -/
def update_charger_control (charging_enabled charging_allowed : Bool)
    (max_current : ℤ) (a : ActuatorState) : Option Bool × Option String :=
  (if a.switch_configured then
    control_charger_switch a.switch_state (charging_enabled && charging_allowed)
   else none,
   if a.select_configured && (charging_enabled && charging_allowed) then
    control_charger_current a.select_state max_current
   else none)

/-- Effect of an issued switch command on the reported switch state, once
the platform has carried it out: a commanded switch reports "on"/"off". -/
def apply_switch_cmd (cmd : Option Bool) (st : Option String) : Option String :=
  match cmd with
  | some b => some (if b then "on" else "off")
  | none => st

/-- Effect of an issued selector command on the reported selector state: a
commanded selector reports the selected option, options list unchanged. -/
def apply_select_cmd (cmd : Option String)
    (st : Option (String × List String)) : Option (String × List String) :=
  match cmd, st with
  | some o, some (_, opts) => some (o, opts)
  | _, s => s

/-- Effect of the issued commands on the actuator-reported states. -/
def apply_commands (a : ActuatorState) (cmds : Option Bool × Option String) :
    ActuatorState :=
  { a with
    switch_state := apply_switch_cmd cmds.1 a.switch_state,
    select_state := apply_select_cmd cmds.2 a.select_state }

/-- Parsing a single digit character appends it to the accumulator. -/
theorem parseNatCore_digit (d acc : Nat) (hd : d < 10) :
    parseNatCore [digitChar d] acc = some (10 * acc + d) := by
  interval_cases d <;> rfl

/-- Parsing distributes over append once the prefix parses. -/
theorem parseNatCore_append (xs ys : List Char) (acc b : Nat)
    (h : parseNatCore xs acc = some b) :
    parseNatCore (xs ++ ys) acc = parseNatCore ys b := by
  induction xs generalizing acc with
  | nil =>
    simp only [parseNatCore] at h
    cases h
    rfl
  | cons c cs ih =>
    rw [List.cons_append]
    simp only [parseNatCore] at h ⊢
    revert h
    cases hd : digitVal c with
    | none => intro h; simp at h
    | some d => intro h; exact ih _ h

/-- Parsing back the printed digits of `n` recovers `n` (up to a positional
factor on the accumulator). -/
theorem parseNatCore_natDigitsAux (fuel : Nat) :
    ∀ n acc : Nat, n < fuel →
      ∃ B, 0 < B ∧ parseNatCore (natDigitsAux fuel n) acc = some (acc * B + n) := by
  induction fuel with
  | zero => intro n _ h; omega
  | succ fuel ih =>
    intro n acc h
    rw [natDigitsAux]
    by_cases h10 : n < 10
    · rw [if_pos h10]
      exact ⟨10, by omega, by rw [parseNatCore_digit n acc h10, Nat.mul_comm]⟩
    · rw [if_neg h10]
      have hdiv : n / 10 < n := Nat.div_lt_self (by omega) (by omega)
      obtain ⟨B, hB, hEq⟩ := ih (n / 10) acc (by omega)
      refine ⟨B * 10, by omega, ?_⟩
      rw [parseNatCore_append _ _ _ _ hEq,
        parseNatCore_digit (n % 10) _ (Nat.mod_lt _ (by omega))]
      congr 1
      have hmod := Nat.div_add_mod n 10
      have : 10 * (acc * B + n / 10) + n % 10
          = acc * (B * 10) + (10 * (n / 10) + n % 10) := by ring
      rw [this, hmod]

/-- Round trip on the digit list of a natural number. -/
theorem parseNatCore_natDigits (n : Nat) :
    parseNatCore (natDigits n) 0 = some n := by
  obtain ⟨B, _, h⟩ := parseNatCore_natDigitsAux (n + 1) n 0 (by omega)
  rw [natDigits, h, Nat.zero_mul, Nat.zero_add]

/-- Digit characters are the ASCII digits. -/
theorem digitChar_range (k : Nat) :
    48 ≤ (digitChar k).toNat ∧ (digitChar k).toNat ≤ 57 := by
  rcases k with _ | _ | _ | _ | _ | _ | _ | _ | _ | k
  · decide
  · decide
  · decide
  · decide
  · decide
  · decide
  · decide
  · decide
  · decide
  · exact (by decide : 48 ≤ ('9' : Char).toNat ∧ ('9' : Char).toNat ≤ 57)

/-- Every printed character is an ASCII digit. -/
theorem natDigitsAux_range (fuel : Nat) :
    ∀ n : Nat, ∀ c ∈ natDigitsAux fuel n,
      48 ≤ c.toNat ∧ c.toNat ≤ 57 := by
  induction fuel with
  | zero => intro n c hc; simp [natDigitsAux] at hc
  | succ fuel ih =>
    intro n c hc
    rw [natDigitsAux] at hc
    by_cases h10 : n < 10
    · rw [if_pos h10] at hc
      rw [List.mem_singleton] at hc
      rw [hc]
      exact digitChar_range n
    · rw [if_neg h10] at hc
      rcases List.mem_append.mp hc with hm | hm
      · exact ih _ c hm
      · rw [List.mem_singleton] at hm
        rw [hm]
        exact digitChar_range _
/-- Printed digit lists are never empty. -/
theorem natDigits_ne_nil (n : Nat) : natDigits n ≠ [] := by
  rw [natDigits, natDigitsAux]
  by_cases h10 : n < 10
  · rw [if_pos h10]; simp
  · rw [if_neg h10]; simp

/-- Python round trip `int(str(t)) == t` for every machine integer, in the
model: the decimal printer and parser are mutually inverse. -/
theorem pyInt_intStr (t : ℤ) : pyInt (intStr t) = some t := by
  cases t with
  | ofNat m =>
    have hdata : (intStr (Int.ofNat m)).data = natDigits m := rfl
    rw [pyInt, hdata]
    cases hD : natDigits m with
    | nil => exact absurd hD (natDigits_ne_nil m)
    | cons c cs =>
      have hc : 48 ≤ c.toNat ∧ c.toNat ≤ 57 := by
        refine natDigitsAux_range (m + 1) m c ?_
        rw [← natDigits, hD]
        exact List.mem_cons_self _ _
      split
      · next heq => cases heq
      · next heq =>
        exfalso
        have : c = '-' := by injection heq
        rw [this] at hc
        revert hc
        decide
      · next heq =>
        exfalso
        have : c = '+' := by injection heq
        rw [this] at hc
        revert hc
        decide
      · next =>
        rw [← hD, parseNatCore_natDigits]
        rfl
  | negSucc m =>
    show (if natDigits (m + 1) = [] then none
      else (parseNatCore (natDigits (m + 1)) 0).map (fun n => -(n : ℤ)))
        = some (Int.negSucc m)
    rw [if_neg (natDigits_ne_nil (m + 1)), parseNatCore_natDigits]
    simp [Int.negSucc_eq]

/-- pairMax returns one of its arguments (Python `max` over tuples). -/
theorem pairMax_cases (a b : ℤ × String) : pairMax a b = a ∨ pairMax a b = b := by
  rw [pairMax]
  split
  · exact Or.inr rfl
  · split
    · exact Or.inl rfl
    · split
      · exact Or.inr rfl
      · exact Or.inl rfl

/-- pairMax dominates its left argument on the numeric component. -/
theorem le_pairMax_left (a b : ℤ × String) : a.1 ≤ (pairMax a b).1 := by
  rw [pairMax]
  split
  · next h => exact le_of_lt h
  · split
    · exact le_refl _
    · split
      · next h1 h2 _ => omega
      · exact le_refl _

/-- pairMax dominates its right argument on the numeric component. -/
theorem le_pairMax_right (a b : ℤ × String) : b.1 ≤ (pairMax a b).1 := by
  rw [pairMax]
  split
  · exact le_refl _
  · split
    · next h1 h2 => exact le_of_lt h2
    · split
      · exact le_refl _
      · next h1 h2 _ => omega

/-- A fold of pairMax lands on an element of the candidate list. -/
theorem foldl_pairMax_mem (l : List (ℤ × String)) :
    ∀ a : ℤ × String, l.foldl pairMax a ∈ a :: l := by
  induction l with
  | nil => intro a; simp
  | cons b tl ih =>
    intro a
    rw [List.foldl_cons]
    rcases List.mem_cons.mp (ih (pairMax a b)) with h | h
    · rcases pairMax_cases a b with h4 | h4 <;> rw [h, h4]
      · exact List.mem_cons_self _ _
      · exact List.mem_cons_of_mem _ (List.mem_cons_self _ _)
    · exact List.mem_cons_of_mem _ (List.mem_cons_of_mem _ h)

/-- A fold of pairMax numerically dominates the base and every candidate. -/
theorem foldl_pairMax_ub (l : List (ℤ × String)) :
    ∀ a : ℤ × String, ∀ x ∈ a :: l, x.1 ≤ (l.foldl pairMax a).1 := by
  induction l with
  | nil =>
    intro a x hx
    rw [List.mem_singleton] at hx
    rw [hx]
    exact le_refl _
  | cons b tl ih =>
    intro a x hx
    rw [List.foldl_cons]
    rcases List.mem_cons.mp hx with h | h
    · rw [h]
      exact le_trans (le_pairMax_left a b)
        (ih (pairMax a b) _ (List.mem_cons_self _ _))
    · rcases List.mem_cons.mp h with h2 | h2
      · rw [h2]
        exact le_trans (le_pairMax_right a b)
          (ih (pairMax a b) _ (List.mem_cons_self _ _))
      · exact ih (pairMax a b) x (List.mem_cons_of_mem _ h2)

/-- Candidates are exactly the options that parse to a value at most the
target, tagged with that value. -/
theorem mem_available_currents (options : List String) (target : ℤ)
    (x : ℤ × String) :
    x ∈ available_currents options target ↔
      x.2 ∈ options ∧ pyInt x.2 = some x.1 ∧ x.1 ≤ target := by
  rw [available_currents, List.mem_filterMap]
  constructor
  · rintro ⟨o, ho, hf⟩
    revert hf
    cases hp : pyInt o with
    | none => intro hf; cases hf
    | some v =>
      intro hf
      have hf' : (if v ≤ target then some ((v, o) : ℤ × String) else none)
          = some x := hf
      by_cases hv : v ≤ target
      · rw [if_pos hv] at hf'
        cases hf'
        exact ⟨ho, hp, hv⟩
      · rw [if_neg hv] at hf'
        cases hf'
  · rintro ⟨ho, hp, hv⟩
    refine ⟨x.2, ho, ?_⟩
    show (match pyInt x.2 with
      | some v => if v ≤ target then some ((v, x.2) : ℤ × String) else none
      | none => none) = some x
    rw [hp]
    show (if x.1 ≤ target then some ((x.1, x.2) : ℤ × String) else none) = some x
    rw [if_pos hv]

/-- C3: the selection rule of the current-selector reconciler (sensor.py
lines 179-225): the exact string form of the integer target is chosen when
present among the options; otherwise any chosen option is an option that
parses to the greatest integer value at most the target; and when no option
parses to an integer at most the target, no command is issued at all, so the
current level is left unchanged. -/
theorem selector_selection_rule (options : List String) (cur : String)
    (target : ℤ) :
    (intStr target ∈ options →
      select_option_for options target = some (intStr target)) ∧
    (∀ s, intStr target ∉ options →
      select_option_for options target = some s →
      s ∈ options ∧ ∃ v, pyInt s = some v ∧ v ≤ target ∧
        ∀ o ∈ options, ∀ w, pyInt o = some w → w ≤ target → w ≤ v) ∧
    ((∀ o ∈ options, ∀ w, pyInt o = some w → target < w) →
      control_charger_current (some (cur, options)) target = none) := by
  refine ⟨?_, ?_, ?_⟩
  · intro h
    rw [select_option_for]
    simp only [if_pos h]
  · intro s hnot hsel
    rw [select_option_for] at hsel
    simp only [if_neg hnot] at hsel
    revert hsel
    cases havail : available_currents options target with
    | nil => intro hsel; cases hsel
    | cons a rest =>
      intro hsel
      have hM : (rest.foldl pairMax a).2 = s := by
        injection hsel
      have hmem : rest.foldl pairMax a ∈ available_currents options target := by
        rw [havail]
        exact foldl_pairMax_mem rest a
      obtain ⟨hopt, hparse, hle⟩ :=
        (mem_available_currents options target _).mp hmem
      refine ⟨hM ▸ hopt, (rest.foldl pairMax a).1, hM ▸ hparse, hle, ?_⟩
      intro o ho w hw hwle
      have hwmem : ((w, o) : ℤ × String) ∈ available_currents options target :=
        (mem_available_currents options target (w, o)).mpr ⟨ho, hw, hwle⟩
      rw [havail] at hwmem
      exact foldl_pairMax_ub rest a (w, o) hwmem
  · intro H
    by_cases hopt : options = []
    · rw [control_charger_current, if_pos hopt]
    · rw [control_charger_current, if_neg hopt]
      have hsel : select_option_for options target = none := by
        rw [select_option_for]
        have hnot : intStr target ∉ options := by
          intro hmem
          exact absurd (pyInt_intStr target)
            (by have := H _ hmem target; intro hc; exact absurd (this hc) (by omega))
        simp only [if_neg hnot]
        have hempty : available_currents options target = [] := by
          rw [available_currents, List.filterMap_eq_nil_iff]
          intro o ho
          cases hp : pyInt o with
          | none => rfl
          | some v =>
            show (if v ≤ target then some ((v, o) : ℤ × String) else none) = none
            rw [if_neg (by have := H o ho v hp; omega)]
        rw [hempty]
      rw [hsel]

/-- Witness for C3: with options `{6,10,13,16,20,32}`, target 16 selects the
exact option "16"; target 5 issues no command; target 17 selects "16". -/
theorem selector_selection_rule_witness :
    select_option_for ["6", "10", "13", "16", "20", "32"] 16 = some "16" ∧
    control_charger_current
      (some ("16", ["6", "10", "13", "16", "20", "32"])) 5 = none ∧
    select_option_for ["6", "10", "13", "16", "20", "32"] 17 = some "16" ∧
    control_charger_current
      (some ("6", ["6", "10", "13", "16", "20", "32"])) 17 = some "16" := by
  refine ⟨?_, ?_, by decide, by decide⟩
  · exact ((selector_selection_rule ["6", "10", "13", "16", "20", "32"]
      "16" 16).1 (by decide)).trans (by decide)
  · refine (selector_selection_rule ["6", "10", "13", "16", "20", "32"]
      "16" 5).2.2 ?_
    intro o ho w hw
    fin_cases ho
    · have h := Option.some.inj ((by decide : pyInt "6" = some 6).symm.trans hw)
      omega
    · have h := Option.some.inj ((by decide : pyInt "10" = some 10).symm.trans hw)
      omega
    · have h := Option.some.inj ((by decide : pyInt "13" = some 13).symm.trans hw)
      omega
    · have h := Option.some.inj ((by decide : pyInt "16" = some 16).symm.trans hw)
      omega
    · have h := Option.some.inj ((by decide : pyInt "20" = some 20).symm.trans hw)
      omega
    · have h := Option.some.inj ((by decide : pyInt "32" = some 32).symm.trans hw)
      omega

/-- Re-running the switch reconciliation after its own command has taken
effect issues nothing. -/
theorem control_switch_idem (ss : Option String) (sc : Bool) :
    control_charger_switch
      (apply_switch_cmd (control_charger_switch ss sc) ss) sc = none := by
  cases ss with
  | none => rfl
  | some st =>
    cases sc with
    | false =>
      cases hon : st == "on" with
      | false =>
        have hcmd : control_charger_switch (some st) false = none := by
          simp [control_charger_switch, hon]
        rw [hcmd]
        simp [apply_switch_cmd, control_charger_switch, hon]
      | true =>
        have hcmd : control_charger_switch (some st) false = some false := by
          simp [control_charger_switch, hon]
        rw [hcmd]
        exact (by decide : control_charger_switch (some "off") false = none)
    | true =>
      cases hon : st == "on" with
      | false =>
        have hcmd : control_charger_switch (some st) true = some true := by
          simp [control_charger_switch, hon]
        rw [hcmd]
        exact (by decide : control_charger_switch (some "on") true = none)
      | true =>
        have hcmd : control_charger_switch (some st) true = none := by
          simp [control_charger_switch, hon]
        rw [hcmd]
        simp [apply_switch_cmd, control_charger_switch, hon]

/-- Re-running the selector reconciliation after its own command has taken
effect issues nothing. -/
theorem control_current_idem (ss : Option (String × List String)) (t : ℤ) :
    control_charger_current
      (apply_select_cmd (control_charger_current ss t) ss) t = none := by
  cases ss with
  | none => rfl
  | some p =>
    obtain ⟨cur, opts⟩ := p
    by_cases hopt : opts = []
    · simp [control_charger_current, hopt, apply_select_cmd]
    · cases hsel : select_option_for opts t with
      | none => simp [control_charger_current, hopt, hsel, apply_select_cmd]
      | some sel =>
        by_cases hcur : cur = sel
        · simp [control_charger_current, hopt, hsel, hcur, apply_select_cmd]
        · simp [control_charger_current, hopt, hsel, hcur, apply_select_cmd]

/-- C5: reconciliation is idempotent — with the enable toggle, the decision
and the actuator-reported states as the first run's commands established
them, a second run issues zero commands; moreover the switch is commanded
only when its reported on-state differs from `enable AND allowed`, and the
selector only when its reported level differs from the computed selection
(sensor.py lines 134-225). -/
theorem reconciler_idempotent (en al : Bool) (mc : ℤ) (a : ActuatorState) :
    update_charger_control en al mc
      (apply_commands a (update_charger_control en al mc a)) = (none, none) ∧
    (∀ c, (update_charger_control en al mc a).1 = some c →
      ∃ st, a.switch_state = some st ∧ ((st == "on") : Bool) ≠ (en && al)) ∧
    (∀ o, (update_charger_control en al mc a).2 = some o →
      ∃ cur opts, a.select_state = some (cur, opts) ∧ cur ≠ o ∧
        select_option_for opts mc = some o) := by
  obtain ⟨swc, sws, selc, sels⟩ := a
  refine ⟨?_, ?_, ?_⟩
  · rw [update_charger_control, Prod.mk.injEq]
    constructor
    · show (if swc then control_charger_switch
          (apply_switch_cmd
            (if swc then control_charger_switch sws (en && al) else none) sws)
          (en && al)
        else none) = none
      cases swc with
      | false => simp
      | true => simpa using control_switch_idem sws (en && al)
    · show (if selc && (en && al) then control_charger_current
          (apply_select_cmd
            (if selc && (en && al) then control_charger_current sels mc else none)
            sels) mc
        else none) = none
      cases hguard : selc && (en && al) with
      | false => simp
      | true => simpa using control_current_idem sels mc
  · intro c hc
    have hc' : (if swc then control_charger_switch sws (en && al) else none)
        = some c := hc
    cases swc with
    | false => simp at hc'
    | true =>
      rw [if_pos rfl] at hc'
      cases sws with
      | none => cases hc'
      | some st =>
        refine ⟨st, rfl, ?_⟩
        revert hc'
        cases hd : en && al with
        | false =>
          cases hon : st == "on" with
          | false => intro hc'; simp [control_charger_switch, hon] at hc'
          | true => intro _; simp [hon]
        | true =>
          cases hon : st == "on" with
          | false => intro _; simp [hon]
          | true => intro hc'; simp [control_charger_switch, hon] at hc'
  · intro o ho
    have ho' : (if selc && (en && al) then control_charger_current sels mc
        else none) = some o := ho
    cases hguard : selc && (en && al) with
    | false => rw [hguard] at ho'; simp at ho'
    | true =>
      rw [hguard, if_pos rfl] at ho'
      cases sels with
      | none => cases ho'
      | some p =>
        obtain ⟨cur, opts⟩ := p
        by_cases hopt : opts = []
        · rw [control_charger_current, if_pos hopt] at ho'
          cases ho'
        · rw [control_charger_current, if_neg hopt] at ho'
          revert ho'
          cases hsel : select_option_for opts mc with
          | none => intro ho'; cases ho'
          | some sel =>
            intro ho'
            have ho2 : (if cur = sel then none else some sel) = some o := ho'
            by_cases hcur : cur = sel
            · rw [if_pos hcur] at ho2
              cases ho2
            · rw [if_neg hcur] at ho2
              have hso : sel = o := by injection ho2
              exact ⟨cur, opts, rfl, hso ▸ hcur, hso ▸ hsel⟩

/-- Witness for C5: a configured switch reported "off" and selector at "10"
under an allowing decision with target 16: the first run's commands, once
applied, leave a second run with nothing to do. -/
theorem reconciler_idempotent_witness :
    update_charger_control true true 16
      (apply_commands
        ⟨true, some "off", true, some ("10", ["6", "10", "16", "32"])⟩
        (update_charger_control true true 16
          ⟨true, some "off", true, some ("10", ["6", "10", "16", "32"])⟩))
      = (none, none) ∧
    (update_charger_control true true 16
      ⟨true, some "off", true, some ("10", ["6", "10", "16", "32"])⟩)
      = (some true, some "16") ∧
    (∃ st, (ActuatorState.mk true (some "off") true
        (some ("10", ["6", "10", "16", "32"]))).switch_state = some st ∧
      ((st == "on") : Bool) ≠ (true && true)) ∧
    (∃ cur opts, (ActuatorState.mk true (some "off") true
        (some ("10", ["6", "10", "16", "32"]))).select_state
          = some (cur, opts) ∧
      cur ≠ "16" ∧ select_option_for opts 16 = some "16") := by
  refine ⟨(reconciler_idempotent true true 16
      ⟨true, some "off", true, some ("10", ["6", "10", "16", "32"])⟩).1,
    by decide,
    (reconciler_idempotent true true 16
      ⟨true, some "off", true, some ("10", ["6", "10", "16", "32"])⟩).2.1
      true (by decide),
    (reconciler_idempotent true true 16
      ⟨true, some "off", true, some ("10", ["6", "10", "16", "32"])⟩).2.2
      "16" (by decide)⟩

/-- C7: when the selector is configured but the enable toggle is off or the
decision disallows charging, no selector command is issued at all — the
reported level stays untouched; only the switch half of the reconciler can
act (sensor.py lines 144-150). -/
theorem selector_untouched_when_disabled (en al : Bool) (mc : ℤ)
    (a : ActuatorState) (h : en = false ∨ al = false) :
    (update_charger_control en al mc a).2 = none := by
  rcases h with h | h <;> rw [h] <;> simp [update_charger_control]

/-- Witness for C7: enable off (and separately decision disallowed) with a
configured selector at level "10" issues no selector command. -/
theorem selector_untouched_when_disabled_witness :
    (update_charger_control false true 16
      ⟨true, some "on", true, some ("10", ["6", "10", "16", "32"])⟩).2 = none ∧
    (update_charger_control true false 16
      ⟨true, some "on", true, some ("10", ["6", "10", "16", "32"])⟩).2 = none := by
  exact ⟨selector_untouched_when_disabled false true 16 _ (Or.inl rfl),
    selector_untouched_when_disabled true false 16 _ (Or.inr rfl)⟩

end ChargingControl
